import Mathlib

/-!
Shallow embedding of the EFS CSI stress/scale test orchestrator
(`test/stress-scale-tests/tests/orchestrator.py`).

The embedding covers the resource tracker (`self.pvcs`, `self.pods`,
`self.current_pod_count`, `self.results`), the operation library
(`_create_pvc`, `_attach_pod`, `_delete_pod`, `_delete_pvc`, the scenario
PVC-creation helpers, `_verify_readwrite`), the weighted-roulette selection
(`_get_cumulative_weights`, `_run_random_operation`), the polling wait
state machines (`_wait_for_pvc_bound`, `_wait_for_pod_deleted`) and the
two-pass cleanup controller (`run_test`, `_cleanup`,
`_get_remaining_resources`).

External effects (Kubernetes API call outcomes, wait results, random
draws) are supplied as explicit environment values; each operation is a
pure function from the tracker state and such an environment to the new
tracker state and its Python return value.
-/

/-- Per-operation `(success, fail)` counter pair, one entry of
`self.results`. -/
structure OpCounter where
  success : Nat
  fail : Nat
deriving DecidableEq

/-- The `self.results` dictionary initialised in `_init_resource_tracking`. -/
structure Results where
  create_pvc : OpCounter
  attach_pod : OpCounter
  delete_pod : OpCounter
  delete_pvc : OpCounter
  verify_write : OpCounter
  verify_read : OpCounter
deriving DecidableEq

/-- The resource-limit configuration read in `_init_test_parameters`:
`self.max_pvcs`, `self.max_pods_per_pvc`, `self.total_max_pods`. -/
structure Config where
  max_pvcs : Nat
  max_pods_per_pvc : Nat
  total_max_pods : Nat
deriving DecidableEq

/-- The orchestrator's tracker state: `self.pvcs` (list of PVC names),
`self.pods` (dict mapping PVC name to list of pod names, embedded as an
association list), `self.current_pod_count` (a Python int, so `Int`), and
the outcome counters. -/
structure OrchState where
  pvcs : List String
  pods : List (String × List String)
  current_pod_count : Int
  results : Results
deriving DecidableEq

/-- State after `_init_resource_tracking`. -/
def init_state : OrchState :=
  { pvcs := []
    pods := []
    current_pod_count := 0
    results :=
      { create_pvc := ⟨0, 0⟩, attach_pod := ⟨0, 0⟩, delete_pod := ⟨0, 0⟩
        delete_pvc := ⟨0, 0⟩, verify_write := ⟨0, 0⟩, verify_read := ⟨0, 0⟩ } }

/-- Dictionary read `self.pods.get(k)` (first binding wins; keys are unique
in the Python dict). -/
def podsLookup : List (String × List String) → String → Option (List String)
  | [], _ => none
  | (k', v) :: rest, k => if k' = k then some v else podsLookup rest k

/-- Dictionary write `self.pods[k] = v`: replace the binding if present,
otherwise append it. -/
def podsSet : List (String × List String) → String → List String →
    List (String × List String)
  | [], k, v => [(k, v)]
  | (k', v') :: rest, k, v =>
    if k' = k then (k, v) :: rest else (k', v') :: podsSet rest k v

/-- Dictionary delete `del self.pods[k]`. -/
def podsErase : List (String × List String) → String →
    List (String × List String)
  | [], _ => []
  | (k', v') :: rest, k =>
    if k' = k then rest else (k', v') :: podsErase rest k

/-- `sum(len(pod_list) for pod_list in self.pods.values())`. -/
def total_tracked (pods : List (String × List String)) : Nat :=
  (pods.map fun p => p.2.length).sum

def incSuccess (c : OpCounter) : OpCounter := { c with success := c.success + 1 }

def incFail (c : OpCounter) : OpCounter := { c with fail := c.fail + 1 }

/-- `random.choice(l)` with the uniform draw supplied as an index `k`
(reduced modulo the length; callers guard that `l` is non-empty). -/
def random_choice (l : List String) (k : Nat) : String :=
  l.getD (k % l.length) ""

/-- Outcomes of a Kubernetes control-plane call: success, an
`ApiException` with status 404, or any other exception. -/
inductive KCall where
  | ok
  | notFound
  | otherError
deriving DecidableEq

/-- External outcomes consumed by one `_create_pvc`-style operation:
whether `create_namespaced_persistent_volume_claim` succeeds (rather than
raising) and the result of `_wait_for_pvc_bound`. -/
structure CreatePvcEnv where
  createOk : Bool
  bindWait : Bool
deriving DecidableEq

/-- `_create_pvc`: skip when `len(self.pvcs) >= self.max_pvcs`; on a
successful create call, track the PVC and count success (the bind-wait
result is only logged); on an exception count failure. -/
def create_pvc (cfg : Config) (st : OrchState) (name : String)
    (env : CreatePvcEnv) : OrchState :=
  if cfg.max_pvcs ≤ st.pvcs.length then st
  else if env.createOk then
    { st with
      pvcs := st.pvcs ++ [name]
      pods := podsSet st.pods name []
      results := { st.results with create_pvc := incSuccess st.results.create_pvc } }
  else
    { st with results := { st.results with create_pvc := incFail st.results.create_pvc } }

/-- `_create_pvc_for_concurrent` (also the success path of
`_create_crash_test_pvc`): tracks the PVC and updates the `create_pvc`
counters, with no `max_pvcs` check. -/
def create_pvc_concurrent (st : OrchState) (name : String)
    (env : CreatePvcEnv) : OrchState :=
  if env.createOk then
    { st with
      pvcs := st.pvcs ++ [name]
      pods := podsSet st.pods name []
      results := { st.results with create_pvc := incSuccess st.results.create_pvc } }
  else
    { st with results := { st.results with create_pvc := incFail st.results.create_pvc } }

/-- The tracking effect of `_create_many_to_one_pvc` and
`_create_one_to_one_pair` when the create call succeeds: the PVC is
tracked with an empty pod list, no `max_pvcs` check and no counter
update. -/
def scenario_create_pvc_tracked (st : OrchState) (name : String) : OrchState :=
  { st with pvcs := st.pvcs ++ [name], pods := podsSet st.pods name [] }

/-- External outcomes consumed by `_attach_pod`: the uniform draw used by
`random.choice(self.pvcs)`, whether `create_namespaced_pod` succeeds, and
the result of `_wait_for_pod_ready`. -/
structure AttachEnv where
  choice : Nat
  createOk : Bool
  readyWait : Bool
deriving DecidableEq

/-- `_select_pvc_for_pod`: an absent or unknown explicit name is replaced
by a uniformly random tracked PVC; a PVC at its per-PVC pod ceiling is
rejected. -/
def select_pvc_for_pod (cfg : Config) (st : OrchState)
    (pvc_name : Option String) (choice : Nat) : Option String :=
  let chosen :=
    match pvc_name with
    | some n => if n ∈ st.pvcs then n else random_choice st.pvcs choice
    | none => random_choice st.pvcs choice
  if cfg.max_pods_per_pvc ≤ ((podsLookup st.pods chosen).getD []).length then none
  else some chosen

/-- `_track_new_pod`: append the pod to the PVC's list, increment
`current_pod_count` and the `attach_pod` success counter. -/
def track_new_pod (st : OrchState) (pvc_name pod_name : String) : OrchState :=
  { st with
    pods := podsSet st.pods pvc_name (((podsLookup st.pods pvc_name).getD []) ++ [pod_name])
    current_pod_count := st.current_pod_count + 1
    results := { st.results with attach_pod := incSuccess st.results.attach_pod } }

/-- `_attach_pod`: skip when no PVCs or when the total pod ceiling is
reached; select a PVC; on a successful pod create call, track the pod,
then return the pod name, or `None` on a ready-wait timeout; on an
exception count failure and return `None`. -/
def attach_pod (cfg : Config) (st : OrchState) (pvc_name : Option String)
    (pod_name : String) (env : AttachEnv) : OrchState × Option String :=
  if st.pvcs = [] then (st, none)
  else if (cfg.total_max_pods : Int) ≤ st.current_pod_count then (st, none)
  else
    match select_pvc_for_pod cfg st pvc_name env.choice with
    | none => (st, none)
    | some pvc =>
      if env.createOk then
        let st' := track_new_pod st pvc pod_name
        if env.readyWait then (st', some pod_name) else (st', none)
      else
        ({ st with results := { st.results with attach_pod := incFail st.results.attach_pod } }, none)

/-- External outcomes consumed by one `_delete_pod`: the outcome of
`delete_namespaced_pod` and the result of `_wait_for_pod_deleted`. -/
structure PodDeleteEnv where
  call : KCall
  waitDeleted : Bool
deriving DecidableEq

/-- `_untrack_deleted_pod`: remove the pod and decrement the counter only
if it is currently tracked for that PVC. -/
def untrack_deleted_pod (st : OrchState) (pvc_name pod_name : String) : OrchState :=
  if pod_name ∈ (podsLookup st.pods pvc_name).getD [] then
    { st with
      pods := podsSet st.pods pvc_name (((podsLookup st.pods pvc_name).getD []).erase pod_name)
      current_pod_count := st.current_pod_count - 1 }
  else st

/-- `_delete_pod` with explicit `pod_name`/`pvc_name` (the random-selection
path always yields a tracked pair, so it is an instance of this function):
an untracked pod is rejected by `_select_pod_for_deletion`; a raising
delete call counts failure; a deletion-wait timeout returns `False` with
no counter change; otherwise untrack and count success. -/
def delete_pod_tracked (st : OrchState) (pvc_name pod_name : String)
    (env : PodDeleteEnv) : OrchState × Bool :=
  if pod_name ∈ (podsLookup st.pods pvc_name).getD [] then
    match env.call with
    | KCall.ok =>
      if env.waitDeleted then
        let st' := untrack_deleted_pod st pvc_name pod_name
        ({ st' with results := { st'.results with delete_pod := incSuccess st'.results.delete_pod } }, true)
      else (st, false)
    | _ =>
      ({ st with results := { st.results with delete_pod := incFail st.results.delete_pod } }, false)
  else (st, false)

/-- The loop body of `_delete_all_pods_for_pvc`: iterate over a snapshot
of the PVC's pod list, calling `_delete_pod` on each with its own external
outcome. -/
def delete_pods_go : OrchState → String → List String → List PodDeleteEnv → OrchState
  | st, _, [], _ => st
  | st, _, _ :: _, [] => st
  | st, pvc, pod :: rest, e :: es =>
    delete_pods_go (delete_pod_tracked st pvc pod e).1 pvc rest es

/-- `_delete_all_pods_for_pvc`: snapshot `list(self.pods[pvc_name])` and
delete each pod in order. -/
def delete_all_pods_for_pvc (st : OrchState) (pvc_name : String)
    (envs : List PodDeleteEnv) : OrchState :=
  delete_pods_go st pvc_name ((podsLookup st.pods pvc_name).getD []) envs

/-- External outcomes consumed by one `_delete_pvc`: outcomes for the
cascaded pod deletions, the outcome of
`delete_namespaced_persistent_volume_claim`, and the result of
`_wait_for_pvc_deleted`. -/
structure PvcDeleteEnv where
  podEnvs : List PodDeleteEnv
  call : KCall
  waitDeleted : Bool

/-- `_untrack_deleted_pvc`: remove the PVC name from `self.pvcs` (first
occurrence) and delete its `self.pods` entry; `current_pod_count` is not
touched. -/
def untrack_deleted_pvc (st : OrchState) (pvc_name : String) : OrchState :=
  { st with
    pvcs := st.pvcs.erase pvc_name
    pods := podsErase st.pods pvc_name }

/-- `_delete_pvc` with an explicitly tracked `pvc_name` (the
random-selection path always yields a tracked name, so it is an instance):
first cascade-delete the PVC's pods, then delete the PVC; a raising delete
call counts failure; a deletion-wait timeout returns `False` with no
counter change; otherwise untrack the PVC and count success. -/
def delete_pvc_tracked (st : OrchState) (pvc_name : String)
    (env : PvcDeleteEnv) : OrchState × Bool :=
  if st.pvcs = [] then (st, false)
  else if pvc_name ∈ st.pvcs then
    let st1 := delete_all_pods_for_pvc st pvc_name env.podEnvs
    match env.call with
    | KCall.ok =>
      if env.waitDeleted then
        let st2 := untrack_deleted_pvc st1 pvc_name
        ({ st2 with results := { st2.results with delete_pvc := incSuccess st2.results.delete_pvc } }, true)
      else (st1, false)
    | _ =>
      ({ st1 with results := { st1.results with delete_pvc := incFail st1.results.delete_pvc } }, false)
  else (st, false)

/-- Outcomes of one `_verify_readwrite` run as they affect the
`verify_write`/`verify_read` counters. -/
inductive RwOutcome where
  | noSharedPvc
  | writeFail
  | readOk
  | readFail
deriving DecidableEq

/-- The counter effect of `_verify_readwrite` (the tracker fields are not
touched by it). -/
def verify_readwrite (st : OrchState) (o : RwOutcome) : OrchState :=
  match o with
  | RwOutcome.noSharedPvc => st
  | RwOutcome.writeFail =>
    { st with results := { st.results with verify_write := incFail st.results.verify_write } }
  | RwOutcome.readOk =>
    { st with results :=
        { st.results with
          verify_write := incSuccess st.results.verify_write
          verify_read := incSuccess st.results.verify_read } }
  | RwOutcome.readFail =>
    { st with results :=
        { st.results with
          verify_write := incSuccess st.results.verify_write
          verify_read := incFail st.results.verify_read } }

/-- One scheduler-visible mutation of the orchestrator state: any of the
tracker-mutating operations of the operation library, with arbitrary
generated names and arbitrary external outcomes. -/
inductive Step (cfg : Config) : OrchState → OrchState → Prop where
  | create_pvc_step (st : OrchState) (name : String) (env : CreatePvcEnv) :
      Step cfg st (create_pvc cfg st name env)
  | create_pvc_concurrent_step (st : OrchState) (name : String) (env : CreatePvcEnv) :
      Step cfg st (create_pvc_concurrent st name env)
  | scenario_create_step (st : OrchState) (name : String) :
      Step cfg st (scenario_create_pvc_tracked st name)
  | attach_pod_step (st : OrchState) (pvc_name : Option String)
      (pod_name : String) (env : AttachEnv) :
      Step cfg st (attach_pod cfg st pvc_name pod_name env).1
  | delete_pod_step (st : OrchState) (pvc_name pod_name : String) (env : PodDeleteEnv) :
      Step cfg st (delete_pod_tracked st pvc_name pod_name env).1
  | delete_pvc_step (st : OrchState) (pvc_name : String) (env : PvcDeleteEnv) :
      Step cfg st (delete_pvc_tracked st pvc_name env).1
  | verify_step (st : OrchState) (o : RwOutcome) :
      Step cfg st (verify_readwrite st o)

/-- States reachable from the freshly initialised orchestrator. -/
inductive Reachable (cfg : Config) : OrchState → Prop where
  | init : Reachable cfg init_state
  | step {st st' : OrchState} : Reachable cfg st → Step cfg st st' → Reachable cfg st'

/-- The steps of `Step` restricted to benign runs: generated PVC names are
fresh, and a PVC is only deleted after all of its cascaded pod deletions
succeeded (the PVC's pod list is empty when `_untrack_deleted_pvc` runs). -/
inductive StepE (cfg : Config) : OrchState → OrchState → Prop where
  | create_pvc_step (st : OrchState) (name : String) (env : CreatePvcEnv)
      (h : podsLookup st.pods name = none) :
      StepE cfg st (create_pvc cfg st name env)
  | create_pvc_concurrent_step (st : OrchState) (name : String) (env : CreatePvcEnv)
      (h : podsLookup st.pods name = none) :
      StepE cfg st (create_pvc_concurrent st name env)
  | scenario_create_step (st : OrchState) (name : String)
      (h : podsLookup st.pods name = none) :
      StepE cfg st (scenario_create_pvc_tracked st name)
  | attach_pod_step (st : OrchState) (pvc_name : Option String)
      (pod_name : String) (env : AttachEnv) :
      StepE cfg st (attach_pod cfg st pvc_name pod_name env).1
  | delete_pod_step (st : OrchState) (pvc_name pod_name : String) (env : PodDeleteEnv) :
      StepE cfg st (delete_pod_tracked st pvc_name pod_name env).1
  | delete_pvc_step (st : OrchState) (pvc_name : String) (env : PvcDeleteEnv)
      (h : (podsLookup (delete_all_pods_for_pvc st pvc_name env.podEnvs).pods pvc_name).getD [] = []) :
      StepE cfg st (delete_pvc_tracked st pvc_name env).1
  | verify_step (st : OrchState) (o : RwOutcome) :
      StepE cfg st (verify_readwrite st o)

/-- States reachable through benign steps only. -/
inductive ReachableE (cfg : Config) : OrchState → Prop where
  | init : ReachableE cfg init_state
  | step {st st' : OrchState} : ReachableE cfg st → StepE cfg st st' → ReachableE cfg st'

/-- The running-sum loop of `_get_cumulative_weights`. -/
def cum_go (acc : ℚ) : List ℚ → List ℚ
  | [] => []
  | w :: ws => (acc + w) :: cum_go (acc + w) ws

/-- `_get_cumulative_weights`: the cumulative-sum list. -/
def cumulative_sums (weights : List ℚ) : List ℚ := cum_go 0 weights

/-- `total_weight = cumulative_weights[-1]`. -/
def total_weight_of (cum : List ℚ) : ℚ := cum.getLastD 0

/-- The selection loop of `_run_random_operation`: return the first index
`i` with `random_val <= cumulative_weights[i]`. -/
def sel_go (i : Nat) : List ℚ → ℚ → Option Nat
  | [], _ => none
  | c :: cs, draw => if draw ≤ c then some i else sel_go (i + 1) cs draw

/-- `_run_random_operation`'s operation selection, as the index of the
selected operation. -/
def run_random_operation (cum : List ℚ) (draw : ℚ) : Option Nat :=
  sel_go 0 cum draw

/-- The strict-exceedance loop used by `select_by_exceeding`. -/
def sel_exceed_go (i : Nat) : List ℚ → ℚ → Option Nat
  | [], _ => none
  | c :: cs, draw => if draw < c then some i else sel_exceed_go (i + 1) cs draw

/-- Modelled from the claim's wording (not from the source): select the
first operation whose cumulative weight bound strictly exceeds the draw.
Used only to compare the claim against `run_random_operation`. -/
def select_by_exceeding (cum : List ℚ) (draw : ℚ) : Option Nat :=
  sel_exceed_go 0 cum draw

/-- The default operation weights of `_get_operations_and_weights`:
create_pvc 25, attach_pod 25, delete_pod 20, delete_pvc 15,
verify_readwrite 15, run_specific_scenario 20. -/
def default_weights : List ℚ := [25, 25, 20, 15, 15, 20]

def default_cumulative : List ℚ := cumulative_sums default_weights

def default_total : ℚ := total_weight_of default_cumulative

/-- One poll of `_wait_for_pvc_bound`: the PVC's reported phase, a 404, or
another `ApiException` (logged and retried). -/
inductive PvcObs where
  | phase (p : String)
  | notFound
  | apiError
deriving DecidableEq

/-- `_wait_for_pvc_bound` over the finite sequence of polls that fit in
the timeout window: phase `"Bound"` returns `True`; a 404 returns `False`;
other phases and API errors are retried; an exhausted poll budget
(timeout) returns `False`. -/
def wait_for_pvc_bound : List PvcObs → Bool
  | [] => false
  | PvcObs.phase p :: rest => if p = "Bound" then true else wait_for_pvc_bound rest
  | PvcObs.notFound :: _ => false
  | PvcObs.apiError :: rest => wait_for_pvc_bound rest

/-- One poll of `_wait_for_pod_deleted`: the pod still exists, a 404, or
another `ApiException` (logged and retried). -/
inductive DelObs where
  | stillExists
  | notFound
  | apiError
deriving DecidableEq

/-- `_wait_for_pod_deleted` over the finite sequence of polls that fit in
the timeout window: a 404 returns `True`; an existing pod and API errors
are retried; an exhausted poll budget (timeout) returns `False`.
(`_wait_for_pvc_deleted` is line-for-line the same state machine.) -/
def wait_for_pod_deleted : List DelObs → Bool
  | [] => false
  | DelObs.stillExists :: rest => wait_for_pod_deleted rest
  | DelObs.notFound :: _ => true
  | DelObs.apiError :: rest => wait_for_pod_deleted rest

/-- A pod as returned by the fresh cluster listing in
`_get_remaining_resources`: its name and the value of its `app` label. -/
structure ClusterPod where
  name : String
  appLabel : String
deriving DecidableEq

/-- A fresh listing of the namespace, as consumed by
`_get_remaining_resources`. -/
structure Cluster where
  pods : List ClusterPod
  pvcNames : List String
deriving DecidableEq

/-- The PVC name filter of `_get_remaining_resources`:
`name.startswith(("test-pvc-", "many2one-", "one2one-", "concurrent-pvc-"))`. -/
def matches_test_pvc_naming (n : String) : Bool :=
  n.startsWith "test-pvc-" || n.startsWith "many2one-" ||
    n.startsWith "one2one-" || n.startsWith "concurrent-pvc-"

/-- `_get_remaining_resources`: pods are filtered by the label
`app=efs-test`, PVCs by the known name patterns. -/
def get_remaining_resources (c : Cluster) : List String :=
  ((c.pods.filter fun p => p.appLabel = "efs-test").map fun p => "pod/" ++ p.name) ++
    ((c.pvcNames.filter fun n => matches_test_pvc_naming n).map fun n => "pvc/" ++ n)

/-- The inner loop of `_cleanup_pods`: delete each pod of one PVC's
snapshot list, outcomes keyed by pod name. The `force` flag only changes
the grace period of the underlying Kubernetes call, not the tracker
logic. -/
def cleanup_pods_list : OrchState → String → List String → (String → PodDeleteEnv) → OrchState
  | st, _, [], _ => st
  | st, pvc, p :: ps, envs =>
    cleanup_pods_list (delete_pod_tracked st pvc p (envs p)).1 pvc ps envs

/-- `_cleanup_pods`: iterate over a snapshot of `self.pods.items()`,
deleting every tracked pod. -/
def cleanup_pods_pairs : OrchState → List (String × List String) → (String → PodDeleteEnv) → OrchState
  | st, [], _ => st
  | st, (pvc, l) :: rest, envs =>
    cleanup_pods_pairs (cleanup_pods_list st pvc l envs) rest envs

/-- `_cleanup_pvcs`: iterate over a snapshot of `list(self.pvcs)`,
deleting every tracked PVC, outcomes keyed by PVC name. -/
def cleanup_pvcs_list : OrchState → List String → (String → PvcDeleteEnv) → OrchState
  | st, [], _ => st
  | st, pvc :: rest, envs =>
    cleanup_pvcs_list (delete_pvc_tracked st pvc (envs pvc)).1 rest envs

/-- `_cleanup_resources`: delete all tracked pods, then all tracked
PVCs. -/
def cleanup_resources (st : OrchState) (podEnvs : String → PodDeleteEnv)
    (pvcEnvs : String → PvcDeleteEnv) : OrchState :=
  let stP := cleanup_pods_pairs st st.pods podEnvs
  cleanup_pvcs_list stP stP.pvcs pvcEnvs

/-- External outcomes consumed by one `_cleanup` run: per-resource delete
outcomes for each pass and the fresh cluster listings taken after each
pass. -/
structure CleanupEnv where
  podEnvs1 : String → PodDeleteEnv
  pvcEnvs1 : String → PvcDeleteEnv
  cluster1 : Cluster
  podEnvs2 : String → PodDeleteEnv
  pvcEnvs2 : String → PvcDeleteEnv
  cluster2 : Cluster

/-- The observable outcome of `_cleanup`: the final tracker state, whether
the forced second pass ran, and the resources logged as remaining after
the second pass (never retried further). -/
structure CleanupResult where
  finalState : OrchState
  forcedPassRan : Bool
  unresolved : List String
deriving DecidableEq

/-- `_cleanup`: a first graceful pass over all tracked pods then PVCs; a
fresh listing; if anything matching the test patterns remains, one forced
pass and one more listing whose result is only logged. -/
def cleanup (st : OrchState) (env : CleanupEnv) : CleanupResult :=
  let st1 := cleanup_resources st env.podEnvs1 env.pvcEnvs1
  let rem1 := get_remaining_resources env.cluster1
  if rem1.isEmpty then ⟨st1, false, []⟩
  else
    let st2 := cleanup_resources st1 env.podEnvs2 env.pvcEnvs2
    let rem2 := get_remaining_resources env.cluster2
    ⟨st2, true, rem2⟩

/-- How the scheduler loop of `run_test` ends: the time budget expires,
`KeyboardInterrupt`, or an unexpected exception (handled by
`_handle_unexpected_test_error`). -/
inductive LoopExit where
  | timeExpired
  | interrupted
  | unexpectedError
deriving DecidableEq

/-- The `try/except/finally` structure of `run_test`: every loop exit mode
falls through to the `finally` block, which invokes `_cleanup`. -/
def run_test (ex : LoopExit) (st : OrchState) (env : CleanupEnv) : CleanupResult :=
  match ex with
  | LoopExit.timeExpired => cleanup st env
  | LoopExit.interrupted => cleanup st env
  | LoopExit.unexpectedError => cleanup st env

/-- A permissive configuration used for concrete executions. -/
def cfg1 : Config := ⟨10, 10, 10⟩

def env_ok : CreatePvcEnv := ⟨true, true⟩

/-- After one successful `_create_pvc` of `"p"`. -/
def st1 : OrchState := create_pvc cfg1 init_state "p" env_ok

/-- After additionally attaching pod `"a"` to `"p"` (create and ready-wait
both succeed). -/
def st2 : OrchState := (attach_pod cfg1 st1 none "a" ⟨0, true, true⟩).1

/-- A `_delete_pvc` run in which the cascaded deletion of pod `"a"` fails
(the pod delete call raises 404) while the PVC deletion itself succeeds. -/
def bad_pvc_env : PvcDeleteEnv := ⟨[⟨KCall.notFound, true⟩], KCall.ok, true⟩

/-- The state after that partially failed `_delete_pvc` of `"p"`. -/
def st3 : OrchState := (delete_pvc_tracked st2 "p" bad_pvc_env).1

/-- A configuration with `max_pvcs = 1`. -/
def cfg5 : Config := ⟨1, 10, 10⟩

def st5a : OrchState := create_pvc cfg5 init_state "p" env_ok

/-- A scenario PVC creation performed at the `max_pvcs` ceiling. -/
def st5b : OrchState := scenario_create_pvc_tracked st5a "q"

/-- A configuration whose total pod ceiling is already met by zero pods. -/
def cfg10 : Config := ⟨10, 10, 0⟩

def st10 : OrchState := create_pvc cfg10 init_state "p" env_ok

/-- A `_delete_pvc` run whose cascaded pod deletion and PVC deletion all
succeed. -/
def good_pvc_env : PvcDeleteEnv := ⟨[⟨KCall.ok, true⟩], KCall.ok, true⟩

/-- A pod delete call that reports 404 (resource already absent). -/
def notfound_pod_env : PodDeleteEnv := ⟨KCall.notFound, true⟩

/-- A PVC delete call that reports 404 (resource already absent), with no
pods to cascade. -/
def notfound_pvc_env : PvcDeleteEnv := ⟨[], KCall.notFound, true⟩

/-- A cleanup environment in which every deletion succeeds and both fresh
listings come back empty. -/
def trivial_cleanup_env : CleanupEnv :=
  { podEnvs1 := fun _ => ⟨KCall.ok, true⟩
    pvcEnvs1 := fun _ => ⟨[], KCall.ok, true⟩
    cluster1 := ⟨[], []⟩
    podEnvs2 := fun _ => ⟨KCall.ok, true⟩
    pvcEnvs2 := fun _ => ⟨[], KCall.ok, true⟩
    cluster2 := ⟨[], []⟩ }


/-- The counter dominates the tracked-pod total (the implicit invariant of
claim C9). -/
def InvGe (st : OrchState) : Prop :=
  (total_tracked st.pods : Int) ≤ st.current_pod_count

/-- The counter equals the tracked-pod total (the invariant of claim C1). -/
def InvEq (st : OrchState) : Prop :=
  st.current_pod_count = (total_tracked st.pods : Int)

/-- The pod-capacity invariant of claim C5. -/
def InvCap (cfg : Config) (st : OrchState) : Prop :=
  st.current_pod_count ≤ (cfg.total_max_pods : Int) ∧
    ∀ p ∈ st.pods, p.2.length ≤ cfg.max_pods_per_pvc

/-! ### Dictionary lemmas -/

theorem podsLookup_podsSet_self (pods : List (String × List String))
    (k : String) (v : List String) : podsLookup (podsSet pods k v) k = some v := by
  induction pods with
  | nil => simp [podsSet, podsLookup]
  | cons hd tl ih =>
    obtain ⟨k', v'⟩ := hd
    by_cases h : k' = k
    · simp [podsSet, podsLookup, h]
    · simp [podsSet, podsLookup, h, ih]

theorem total_podsSet (pods : List (String × List String)) (k : String) (v : List String) :
    total_tracked (podsSet pods k v) + ((podsLookup pods k).getD []).length
      = total_tracked pods + v.length := by
  induction pods with
  | nil => simp [podsSet, podsLookup, total_tracked]
  | cons hd tl ih =>
    obtain ⟨k', v'⟩ := hd
    by_cases h : k' = k
    · simp [podsSet, podsLookup, h, total_tracked]
      omega
    · simp [podsSet, podsLookup, h, total_tracked] at ih ⊢
      omega

theorem total_podsErase (pods : List (String × List String)) (k : String) :
    total_tracked (podsErase pods k) + ((podsLookup pods k).getD []).length
      = total_tracked pods := by
  induction pods with
  | nil => simp [podsErase, podsLookup, total_tracked]
  | cons hd tl ih =>
    obtain ⟨k', v'⟩ := hd
    by_cases h : k' = k
    · simp [podsErase, podsLookup, h, total_tracked]
      omega
    · simp [podsErase, podsLookup, h, total_tracked] at ih ⊢
      omega

theorem mem_podsSet {pods : List (String × List String)} {k : String}
    {v : List String} {p : String × List String} (h : p ∈ podsSet pods k v) :
    p ∈ pods ∨ p = (k, v) := by
  induction pods with
  | nil => simpa [podsSet] using h
  | cons hd tl ih =>
    obtain ⟨k', v'⟩ := hd
    by_cases hk : k' = k
    · simp [podsSet, hk] at h
      rcases h with h | h
      · exact Or.inr (by simp [h])
      · exact Or.inl (by simp [h])
    · simp [podsSet, hk] at h
      rcases h with h | h
      · exact Or.inl (by simp [h])
      · rcases ih h with h' | h'
        · exact Or.inl (by simp [h'])
        · exact Or.inr h'

theorem mem_podsErase {pods : List (String × List String)} {k : String}
    {p : String × List String} (h : p ∈ podsErase pods k) : p ∈ pods := by
  induction pods with
  | nil => simp [podsErase] at h
  | cons hd tl ih =>
    obtain ⟨k', v'⟩ := hd
    by_cases hk : k' = k
    · simp [podsErase, hk] at h
      exact List.mem_cons_of_mem _ h
    · simp [podsErase, hk] at h
      rcases h with h | h
      · simp [h]
      · exact List.mem_cons_of_mem _ (ih h)

theorem podsLookup_mem {pods : List (String × List String)} {k : String}
    {v : List String} (h : podsLookup pods k = some v) : (k, v) ∈ pods := by
  induction pods with
  | nil => simp [podsLookup] at h
  | cons hd tl ih =>
    obtain ⟨k', v'⟩ := hd
    by_cases hk : k' = k
    · simp [podsLookup, hk] at h
      simp [hk, h]
    · simp [podsLookup, hk] at h
      exact List.mem_cons_of_mem _ (ih h)

theorem mem_getD_lookup {pods : List (String × List String)} {k : String}
    {pod : String} (h : pod ∈ (podsLookup pods k).getD []) :
    ∃ l, podsLookup pods k = some l ∧ pod ∈ l := by
  cases hl : podsLookup pods k with
  | none => rw [hl] at h; simp at h
  | some l => exact ⟨l, rfl, by rwa [hl] at h⟩

/-! ### Effect lemmas for the tracker operations -/

theorem track_new_pod_effect (st : OrchState) (pvc pod : String) :
    total_tracked (track_new_pod st pvc pod).pods = total_tracked st.pods + 1 ∧
      (track_new_pod st pvc pod).current_pod_count = st.current_pod_count + 1 := by
  refine ⟨?_, rfl⟩
  have h := total_podsSet st.pods pvc (((podsLookup st.pods pvc).getD []) ++ [pod])
  simp only [track_new_pod, List.length_append, List.length_cons, List.length_nil] at h ⊢
  omega

theorem untrack_deleted_pod_effect (st : OrchState) (pvc pod : String)
    (h : pod ∈ (podsLookup st.pods pvc).getD []) :
    total_tracked (untrack_deleted_pod st pvc pod).pods + 1 = total_tracked st.pods ∧
      (untrack_deleted_pod st pvc pod).current_pod_count = st.current_pod_count - 1 := by
  have h2 := total_podsSet st.pods pvc (((podsLookup st.pods pvc).getD []).erase pod)
  have h3 : (((podsLookup st.pods pvc).getD []).erase pod).length
      = ((podsLookup st.pods pvc).getD []).length - 1 := List.length_erase_of_mem h
  have h4 : 1 ≤ ((podsLookup st.pods pvc).getD []).length :=
    List.length_pos.mpr (List.ne_nil_of_mem h)
  constructor
  · simp only [untrack_deleted_pod, if_pos h]
    omega
  · simp only [untrack_deleted_pod, if_pos h]

theorem untrack_deleted_pvc_effect (st : OrchState) (pvc : String) :
    total_tracked (untrack_deleted_pvc st pvc).pods
        + ((podsLookup st.pods pvc).getD []).length = total_tracked st.pods ∧
      (untrack_deleted_pvc st pvc).current_pod_count = st.current_pod_count := by
  exact ⟨total_podsErase st.pods pvc, rfl⟩

theorem delete_pod_tracked_success_pods (st : OrchState) (pvc pod : String)
    (e : PodDeleteEnv) (hm : pod ∈ (podsLookup st.pods pvc).getD [])
    (hc : e.call = KCall.ok) (hw : e.waitDeleted = true) :
    (delete_pod_tracked st pvc pod e).1
      = { untrack_deleted_pod st pvc pod with
          results := { (untrack_deleted_pod st pvc pod).results with
            delete_pod := incSuccess (untrack_deleted_pod st pvc pod).results.delete_pod } } := by
  simp only [delete_pod_tracked, if_pos hm, hc, hw, if_pos]

/-! ### Preservation of the counter lower bound (InvGe) -/

theorem invGe_results_update (st : OrchState) (r : Results) (h : InvGe st) :
    InvGe { st with results := r } := h

theorem invGe_create_pvc (cfg : Config) (st : OrchState) (name : String)
    (env : CreatePvcEnv) (h : InvGe st) : InvGe (create_pvc cfg st name env) := by
  unfold create_pvc
  split
  · exact h
  · split
    · have h2 := total_podsSet st.pods name []
      simp only [InvGe] at h ⊢
      simp only [List.length_nil] at h2
      omega
    · exact h

theorem invGe_create_pvc_concurrent (st : OrchState) (name : String)
    (env : CreatePvcEnv) (h : InvGe st) : InvGe (create_pvc_concurrent st name env) := by
  unfold create_pvc_concurrent
  split
  · have h2 := total_podsSet st.pods name []
    simp only [InvGe] at h ⊢
    simp only [List.length_nil] at h2
    omega
  · exact h

theorem invGe_scenario_create (st : OrchState) (name : String) (h : InvGe st) :
    InvGe (scenario_create_pvc_tracked st name) := by
  have h2 := total_podsSet st.pods name []
  simp only [InvGe, scenario_create_pvc_tracked] at h ⊢
  simp only [List.length_nil] at h2
  omega

theorem invGe_attach_pod (cfg : Config) (st : OrchState) (pn : Option String)
    (pod : String) (env : AttachEnv) (h : InvGe st) :
    InvGe (attach_pod cfg st pn pod env).1 := by
  unfold attach_pod
  split
  · exact h
  · split
    · exact h
    · split
      · exact h
      · next pvc heq =>
        split
        · split
          all_goals
            dsimp only
            have he := track_new_pod_effect st pvc pod
            simp only [InvGe] at h ⊢
            omega
        · exact h

theorem invGe_delete_pod (st : OrchState) (pvc pod : String)
    (env : PodDeleteEnv) (h : InvGe st) : InvGe (delete_pod_tracked st pvc pod env).1 := by
  unfold delete_pod_tracked
  split
  case isTrue hm =>
    split
    · split
      · have he := untrack_deleted_pod_effect st pvc pod hm
        simp only [InvGe] at h ⊢
        omega
      · exact h
    all_goals exact h
  case isFalse => exact h

theorem invGe_delete_pods_go (todo : List String) :
    ∀ (st : OrchState) (pvc : String) (envs : List PodDeleteEnv),
      InvGe st → InvGe (delete_pods_go st pvc todo envs) := by
  induction todo with
  | nil => intro st pvc envs h; exact h
  | cons x xs ih =>
    intro st pvc envs h
    cases envs with
    | nil => exact h
    | cons e es => exact ih _ _ _ (invGe_delete_pod st pvc x e h)

theorem invGe_delete_pvc (st : OrchState) (pvc : String) (env : PvcDeleteEnv)
    (h : InvGe st) : InvGe (delete_pvc_tracked st pvc env).1 := by
  unfold delete_pvc_tracked
  split
  · exact h
  · split
    · have h1 : InvGe (delete_all_pods_for_pvc st pvc env.podEnvs) :=
        invGe_delete_pods_go _ _ _ _ h
      split
      · split
        · have he := untrack_deleted_pvc_effect (delete_all_pods_for_pvc st pvc env.podEnvs) pvc
          simp only [InvGe] at h1 ⊢
          omega
        · exact h1
      · exact h1
    · exact h

theorem invGe_verify (st : OrchState) (o : RwOutcome) (h : InvGe st) :
    InvGe (verify_readwrite st o) := by
  cases o <;> exact h

theorem step_invGe {cfg : Config} {st st' : OrchState} (hs : Step cfg st st')
    (h : InvGe st) : InvGe st' := by
  cases hs with
  | create_pvc_step name env => exact invGe_create_pvc cfg st name env h
  | create_pvc_concurrent_step name env => exact invGe_create_pvc_concurrent st name env h
  | scenario_create_step name => exact invGe_scenario_create st name h
  | attach_pod_step pn pod env => exact invGe_attach_pod cfg st pn pod env h
  | delete_pod_step pvc pod env => exact invGe_delete_pod st pvc pod env h
  | delete_pvc_step pvc env => exact invGe_delete_pvc st pvc env h
  | verify_step o => exact invGe_verify st o h

theorem reachable_invGe {cfg : Config} {st : OrchState} (h : Reachable cfg st) :
    InvGe st := by
  induction h with
  | init => simp [InvGe, init_state, total_tracked]
  | step _ hs ih => exact step_invGe hs ih

/-! ### Preservation of the counter equality (InvEq) along benign steps -/

theorem invEq_create_pvc (cfg : Config) (st : OrchState) (name : String)
    (env : CreatePvcEnv) (hf : podsLookup st.pods name = none) (h : InvEq st) :
    InvEq (create_pvc cfg st name env) := by
  unfold create_pvc
  split
  · exact h
  · split
    · have h2 := total_podsSet st.pods name []
      rw [hf] at h2
      simp only [InvEq] at h ⊢
      simp only [Option.getD_none, List.length_nil] at h2
      omega
    · exact h

theorem invEq_create_pvc_concurrent (st : OrchState) (name : String)
    (env : CreatePvcEnv) (hf : podsLookup st.pods name = none) (h : InvEq st) :
    InvEq (create_pvc_concurrent st name env) := by
  unfold create_pvc_concurrent
  split
  · have h2 := total_podsSet st.pods name []
    rw [hf] at h2
    simp only [InvEq] at h ⊢
    simp only [Option.getD_none, List.length_nil] at h2
    omega
  · exact h

theorem invEq_scenario_create (st : OrchState) (name : String)
    (hf : podsLookup st.pods name = none) (h : InvEq st) :
    InvEq (scenario_create_pvc_tracked st name) := by
  have h2 := total_podsSet st.pods name []
  rw [hf] at h2
  simp only [InvEq, scenario_create_pvc_tracked] at h ⊢
  simp only [Option.getD_none, List.length_nil] at h2
  omega

theorem invEq_attach_pod (cfg : Config) (st : OrchState) (pn : Option String)
    (pod : String) (env : AttachEnv) (h : InvEq st) :
    InvEq (attach_pod cfg st pn pod env).1 := by
  unfold attach_pod
  split
  · exact h
  · split
    · exact h
    · split
      · exact h
      · next pvc heq =>
        split
        · split
          all_goals
            dsimp only
            have he := track_new_pod_effect st pvc pod
            simp only [InvEq] at h ⊢
            omega
        · exact h

theorem invEq_delete_pod (st : OrchState) (pvc pod : String)
    (env : PodDeleteEnv) (h : InvEq st) : InvEq (delete_pod_tracked st pvc pod env).1 := by
  unfold delete_pod_tracked
  split
  case isTrue hm =>
    split
    · split
      · have he := untrack_deleted_pod_effect st pvc pod hm
        simp only [InvEq] at h ⊢
        omega
      · exact h
    all_goals exact h
  case isFalse => exact h

theorem invEq_delete_pods_go (todo : List String) :
    ∀ (st : OrchState) (pvc : String) (envs : List PodDeleteEnv),
      InvEq st → InvEq (delete_pods_go st pvc todo envs) := by
  induction todo with
  | nil => intro st pvc envs h; exact h
  | cons x xs ih =>
    intro st pvc envs h
    cases envs with
    | nil => exact h
    | cons e es => exact ih _ _ _ (invEq_delete_pod st pvc x e h)

theorem invEq_delete_pvc (st : OrchState) (pvc : String) (env : PvcDeleteEnv)
    (hempty : (podsLookup (delete_all_pods_for_pvc st pvc env.podEnvs).pods pvc).getD [] = [])
    (h : InvEq st) : InvEq (delete_pvc_tracked st pvc env).1 := by
  unfold delete_pvc_tracked
  split
  · exact h
  · split
    · have h1 : InvEq (delete_all_pods_for_pvc st pvc env.podEnvs) :=
        invEq_delete_pods_go _ _ _ _ h
      split
      · split
        · have he := untrack_deleted_pvc_effect (delete_all_pods_for_pvc st pvc env.podEnvs) pvc
          have hlen : ((podsLookup (delete_all_pods_for_pvc st pvc env.podEnvs).pods pvc).getD []).length = 0 := by
            rw [hempty]; rfl
          simp only [InvEq] at h1 ⊢
          omega
        · exact h1
      · exact h1
    · exact h

theorem invEq_verify (st : OrchState) (o : RwOutcome) (h : InvEq st) :
    InvEq (verify_readwrite st o) := by
  cases o <;> exact h

theorem stepE_invEq {cfg : Config} {st st' : OrchState} (hs : StepE cfg st st')
    (h : InvEq st) : InvEq st' := by
  cases hs with
  | create_pvc_step name env hf => exact invEq_create_pvc cfg st name env hf h
  | create_pvc_concurrent_step name env hf => exact invEq_create_pvc_concurrent st name env hf h
  | scenario_create_step name hf => exact invEq_scenario_create st name hf h
  | attach_pod_step pn pod env => exact invEq_attach_pod cfg st pn pod env h
  | delete_pod_step pvc pod env => exact invEq_delete_pod st pvc pod env h
  | delete_pvc_step pvc env hempty => exact invEq_delete_pvc st pvc env hempty h
  | verify_step o => exact invEq_verify st o h

theorem reachableE_invEq {cfg : Config} {st : OrchState} (h : ReachableE cfg st) :
    InvEq st := by
  induction h with
  | init => simp [InvEq, init_state, total_tracked]
  | step _ hs ih => exact stepE_invEq hs ih

/-! ### Preservation of the pod-capacity invariant (InvCap) -/

theorem select_pvc_some_lt (cfg : Config) (st : OrchState) (pn : Option String)
    (choice : Nat) (pvc : String)
    (h : select_pvc_for_pod cfg st pn choice = some pvc) :
    ((podsLookup st.pods pvc).getD []).length < cfg.max_pods_per_pvc := by
  simp only [select_pvc_for_pod] at h
  split at h
  · simp at h
  · next hge =>
    injection h with h
    subst h
    omega

theorem cap_podsSet_nil {cfg : Config} {pods : List (String × List String)}
    {name : String} (hcap : ∀ p ∈ pods, p.2.length ≤ cfg.max_pods_per_pvc) :
    ∀ p ∈ podsSet pods name [], p.2.length ≤ cfg.max_pods_per_pvc := by
  intro p hp
  rcases mem_podsSet hp with h | h
  · exact hcap p h
  · simp [h]

theorem invCap_create_pvc (cfg : Config) (st : OrchState) (name : String)
    (env : CreatePvcEnv) (h : InvCap cfg st) : InvCap cfg (create_pvc cfg st name env) := by
  obtain ⟨h1, h2⟩ := h
  unfold create_pvc
  split
  · exact ⟨h1, h2⟩
  · split
    · exact ⟨h1, cap_podsSet_nil h2⟩
    · exact ⟨h1, h2⟩

theorem invCap_create_pvc_concurrent (cfg : Config) (st : OrchState) (name : String)
    (env : CreatePvcEnv) (h : InvCap cfg st) : InvCap cfg (create_pvc_concurrent st name env) := by
  obtain ⟨h1, h2⟩ := h
  unfold create_pvc_concurrent
  split
  · exact ⟨h1, cap_podsSet_nil h2⟩
  · exact ⟨h1, h2⟩

theorem invCap_scenario_create (cfg : Config) (st : OrchState) (name : String)
    (h : InvCap cfg st) : InvCap cfg (scenario_create_pvc_tracked st name) := by
  obtain ⟨h1, h2⟩ := h
  exact ⟨h1, cap_podsSet_nil h2⟩

theorem invCap_attach_pod (cfg : Config) (st : OrchState) (pn : Option String)
    (pod : String) (env : AttachEnv) (h : InvCap cfg st) :
    InvCap cfg (attach_pod cfg st pn pod env).1 := by
  obtain ⟨h1, h2⟩ := h
  unfold attach_pod
  split
  · exact ⟨h1, h2⟩
  · split
    · exact ⟨h1, h2⟩
    · next hlt =>
      split
      · exact ⟨h1, h2⟩
      · next pvc heq =>
        have hsel := select_pvc_some_lt cfg st pn env.choice pvc heq
        split
        · split
          all_goals
            dsimp only
            constructor
            · simp only [track_new_pod]
              omega
            · intro p hp
              simp only [track_new_pod] at hp
              rcases mem_podsSet hp with hm | hm
              · exact h2 p hm
              · rw [hm]
                simp only [List.length_append, List.length_cons, List.length_nil]
                omega
        · exact ⟨h1, h2⟩

theorem invCap_delete_pod (cfg : Config) (st : OrchState) (pvc pod : String)
    (env : PodDeleteEnv) (h : InvCap cfg st) :
    InvCap cfg (delete_pod_tracked st pvc pod env).1 := by
  obtain ⟨h1, h2⟩ := h
  unfold delete_pod_tracked
  split
  case isTrue hm =>
    obtain ⟨l, hl, hml⟩ := mem_getD_lookup hm
    split
    · split
      · constructor
        · simp only [untrack_deleted_pod, if_pos hm]
          omega
        · intro p hp
          simp only [untrack_deleted_pod, if_pos hm] at hp
          rcases mem_podsSet hp with hmem | hmem
          · exact h2 p hmem
          · rw [hmem]
            dsimp only
            rw [hl, Option.getD_some]
            have hlen : (l.erase pod).length ≤ l.length := List.length_erase_le _ _
            have hbound : l.length ≤ cfg.max_pods_per_pvc := h2 (pvc, l) (podsLookup_mem hl)
            omega
      · exact ⟨h1, h2⟩
    all_goals exact ⟨h1, h2⟩
  case isFalse => exact ⟨h1, h2⟩

theorem invCap_delete_pods_go (cfg : Config) (todo : List String) :
    ∀ (st : OrchState) (pvc : String) (envs : List PodDeleteEnv),
      InvCap cfg st → InvCap cfg (delete_pods_go st pvc todo envs) := by
  induction todo with
  | nil => intro st pvc envs h; exact h
  | cons x xs ih =>
    intro st pvc envs h
    cases envs with
    | nil => exact h
    | cons e es => exact ih _ _ _ (invCap_delete_pod cfg st pvc x e h)

theorem invCap_delete_pvc (cfg : Config) (st : OrchState) (pvc : String)
    (env : PvcDeleteEnv) (h : InvCap cfg st) :
    InvCap cfg (delete_pvc_tracked st pvc env).1 := by
  unfold delete_pvc_tracked
  split
  · exact h
  · split
    · have h1 : InvCap cfg (delete_all_pods_for_pvc st pvc env.podEnvs) :=
        invCap_delete_pods_go cfg _ _ _ _ h
      obtain ⟨h1a, h1b⟩ := h1
      split
      · split
        · refine ⟨h1a, ?_⟩
          intro p hp
          simp only [untrack_deleted_pvc] at hp
          exact h1b p (mem_podsErase hp)
        · exact ⟨h1a, h1b⟩
      · exact ⟨h1a, h1b⟩
    · exact h

theorem invCap_verify (cfg : Config) (st : OrchState) (o : RwOutcome)
    (h : InvCap cfg st) : InvCap cfg (verify_readwrite st o) := by
  cases o <;> exact h

theorem step_invCap {cfg : Config} {st st' : OrchState} (hs : Step cfg st st')
    (h : InvCap cfg st) : InvCap cfg st' := by
  cases hs with
  | create_pvc_step name env => exact invCap_create_pvc cfg st name env h
  | create_pvc_concurrent_step name env => exact invCap_create_pvc_concurrent cfg st name env h
  | scenario_create_step name => exact invCap_scenario_create cfg st name h
  | attach_pod_step pn pod env => exact invCap_attach_pod cfg st pn pod env h
  | delete_pod_step pvc pod env => exact invCap_delete_pod cfg st pvc pod env h
  | delete_pvc_step pvc env => exact invCap_delete_pvc cfg st pvc env h
  | verify_step o => exact invCap_verify cfg st o h

theorem reachable_invCap {cfg : Config} {st : OrchState} (h : Reachable cfg st) :
    InvCap cfg st := by
  induction h with
  | init =>
    constructor
    · simp [init_state]
    · intro p hp
      simp [init_state] at hp
  | step _ hs ih => exact step_invCap hs ih

/-! ### The cascaded pod deletion empties the pod list when every deletion
succeeds -/

theorem delete_pods_go_empties (todo : List String) :
    ∀ (st : OrchState) (pvc : String) (envs : List PodDeleteEnv),
      podsLookup st.pods pvc = some todo →
      (∀ e ∈ envs, e.call = KCall.ok ∧ e.waitDeleted = true) →
      todo.length ≤ envs.length →
      podsLookup (delete_pods_go st pvc todo envs).pods pvc = some [] := by
  induction todo with
  | nil => intro st pvc envs h _ _; exact h
  | cons x xs ih =>
    intro st pvc envs h hok hlen
    cases envs with
    | nil => simp at hlen
    | cons e es =>
      have he := hok e (List.mem_cons_self e es)
      have hm : x ∈ (podsLookup st.pods pvc).getD [] := by
        rw [h]
        exact List.mem_cons_self x xs
      have hpods := delete_pod_tracked_success_pods st pvc x e hm he.1 he.2
      have hlook : podsLookup (delete_pod_tracked st pvc x e).1.pods pvc = some xs := by
        rw [hpods]
        simp only [untrack_deleted_pod, if_pos hm]
        rw [podsLookup_podsSet_self, h]
        simp
      show podsLookup (delete_pods_go (delete_pod_tracked st pvc x e).1 pvc xs es).pods pvc
        = some []
      exact ih _ _ _ hlook (fun e' he' => hok e' (List.mem_cons_of_mem _ he'))
        (by simpa using Nat.le_of_succ_le_succ (by simpa using hlen))

/-! ### Roulette selection lemmas -/

theorem sel_go_first (cs : List ℚ) : ∀ (i : Nat) (draw : ℚ),
    (∃ c ∈ cs, draw ≤ c) →
    ∃ k, k < cs.length ∧ sel_go i cs draw = some (i + k) ∧
      draw ≤ cs.getD k 0 ∧ ∀ j < k, cs.getD j 0 < draw := by
  induction cs with
  | nil =>
    intro i draw h
    simp at h
  | cons c cs ih =>
    intro i draw h
    by_cases hc : draw ≤ c
    · refine ⟨0, by simp, ?_, by simpa using hc, by simp⟩
      simp [sel_go, hc]
    · have h' : ∃ c' ∈ cs, draw ≤ c' := by
        rcases h with ⟨c', hc', hle⟩
        rcases List.mem_cons.mp hc' with h1 | h1
        · exact absurd (h1 ▸ hle) hc
        · exact ⟨c', h1, hle⟩
      obtain ⟨k, hk1, hk2, hk3, hk4⟩ := ih (i + 1) draw h'
      refine ⟨k + 1, by simpa using hk1, ?_, by simpa using hk3, ?_⟩
      · simp only [sel_go, if_neg hc]
        rw [hk2]
        congr 1
        omega
      · intro j hj
        cases j with
        | zero => simpa using lt_of_not_le hc
        | succ j' => simpa using hk4 j' (by omega)

theorem length_cum_go (acc : ℚ) (ws : List ℚ) : (cum_go acc ws).length = ws.length := by
  induction ws generalizing acc with
  | nil => rfl
  | cons w ws ih => simp [cum_go, ih]

theorem getLastD_mem_cons (l : List ℚ) : ∀ d : ℚ, l.getLastD d = d ∨ l.getLastD d ∈ l := by
  induction l with
  | nil => intro d; left; rfl
  | cons x xs ih =>
    intro d
    rw [List.getLastD_cons]
    rcases ih x with h | h
    · right
      rw [h]
      exact List.mem_cons_self x xs
    · right
      exact List.mem_cons_of_mem _ h

theorem getLastD_mem_of_ne_nil (l : List ℚ) (h : l ≠ []) : l.getLastD 0 ∈ l := by
  cases l with
  | nil => exact absurd rfl h
  | cons x xs =>
    rw [List.getLastD_cons]
    rcases getLastD_mem_cons xs x with h' | h'
    · rw [h']
      exact List.mem_cons_self x xs
    · exact List.mem_cons_of_mem _ h' 

/-! ### Wait state-machine lemmas -/

theorem wait_for_pvc_bound_iff (bt : List PvcObs) :
    wait_for_pvc_bound bt = true ↔
      ∃ pre post, bt = pre ++ PvcObs.phase "Bound" :: post ∧
        ∀ o ∈ pre, o ≠ PvcObs.notFound := by
  induction bt with
  | nil =>
    constructor
    · intro h
      simp [wait_for_pvc_bound] at h
    · rintro ⟨pre, post, h, -⟩
      exact absurd h.symm (by simp)
  | cons o rest ih =>
    cases o with
    | phase p =>
      by_cases hp : p = "Bound"
      · subst hp
        constructor
        · intro _
          exact ⟨[], rest, rfl, by simp⟩
        · intro _
          simp [wait_for_pvc_bound]
      · constructor
        · intro h
          have h' : wait_for_pvc_bound rest = true := by
            simpa [wait_for_pvc_bound, hp] using h
          obtain ⟨pre, post, heq, hpre⟩ := ih.mp h'
          refine ⟨PvcObs.phase p :: pre, post, by rw [heq, List.cons_append], ?_⟩
          intro o ho
          rcases List.mem_cons.mp ho with h0 | h0
          · rw [h0]
            simp
          · exact hpre o h0
        · rintro ⟨pre, post, heq, hpre⟩
          cases pre with
          | nil =>
            injection heq with h1 h2
            injection h1 with hp'
            exact absurd hp' hp
          | cons o0 pre' =>
            rw [List.cons_append] at heq
            injection heq with h1 h2
            have h' := ih.mpr ⟨pre', post, h2, fun o ho => hpre o (List.mem_cons_of_mem _ ho)⟩
            simpa [wait_for_pvc_bound, hp] using h'
    | notFound =>
      constructor
      · intro h
        simp [wait_for_pvc_bound] at h
      · rintro ⟨pre, post, heq, hpre⟩
        cases pre with
        | nil =>
          injection heq with h1 h2
          exact PvcObs.noConfusion h1
        | cons o0 pre' =>
          rw [List.cons_append] at heq
          injection heq with h1 h2
          exact ((hpre o0 (List.mem_cons_self o0 pre')) h1.symm).elim
    | apiError =>
      constructor
      · intro h
        have h' : wait_for_pvc_bound rest = true := by
          simpa [wait_for_pvc_bound] using h
        obtain ⟨pre, post, heq, hpre⟩ := ih.mp h'
        refine ⟨PvcObs.apiError :: pre, post, by rw [heq, List.cons_append], ?_⟩
        intro o ho
        rcases List.mem_cons.mp ho with h0 | h0
        · rw [h0]
          simp
        · exact hpre o h0
      · rintro ⟨pre, post, heq, hpre⟩
        cases pre with
        | nil =>
          injection heq with h1 h2
          exact PvcObs.noConfusion h1
        | cons o0 pre' =>
          rw [List.cons_append] at heq
          injection heq with h1 h2
          have h' := ih.mpr ⟨pre', post, h2, fun o ho => hpre o (List.mem_cons_of_mem _ ho)⟩
          simpa [wait_for_pvc_bound] using h'

theorem wait_for_pod_deleted_iff (dt : List DelObs) :
    wait_for_pod_deleted dt = true ↔ DelObs.notFound ∈ dt := by
  induction dt with
  | nil => simp [wait_for_pod_deleted]
  | cons o rest ih =>
    cases o with
    | stillExists => simp [wait_for_pod_deleted, ih]
    | notFound => simp [wait_for_pod_deleted]
    | apiError => simp [wait_for_pod_deleted, ih]

/-! ## Claim theorems -/

/-- C1 (counterexample): the tracked pod counter does not always equal the
sum of the per-PVC pod-list lengths. After creating PVC `"p"`, attaching
pod `"a"`, and running `_delete_pvc("p")` in which the cascaded deletion
of `"a"` fails (its delete call raises 404) while the PVC deletion
succeeds, the reachable state `st3` has `current_pod_count = 1` but an
empty `pods` dict, refuting the claimed equality — in particular it is not
preserved by delete-claim when a sub-unit deletion fails. -/
theorem C1_counterexample_pod_counter_drift :
    Reachable cfg1 st3 ∧
      st3.current_pod_count ≠ (total_tracked st3.pods : Int) := by
  constructor
  · exact Reachable.step (Reachable.step (Reachable.step Reachable.init
      (Step.create_pvc_step init_state "p" env_ok))
      (Step.attach_pod_step st1 none "a" ⟨0, true, true⟩))
      (Step.delete_pvc_step st2 "p" bad_pvc_env)
  · decide

/-- C1 (amended): in every state reachable through benign steps — freshly
generated PVC names, and every delete-claim's cascaded pod deletions
succeeding before the claim is untracked — `current_pod_count` equals
`sum(len(pods) for pods in pods.values())`. (The unrestricted reachable
states only satisfy the `≥` inequality; see the counterexample.) -/
theorem C1_amended_counter_equality (cfg : Config) (st : OrchState)
    (h : ReachableE cfg st) :
    st.current_pod_count = (total_tracked st.pods : Int) :=
  reachableE_invEq h

/-- Witness for the amended C1 at a concrete two-step benign execution. -/
theorem C1_amended_counter_equality_witness :
    st2.current_pod_count = (total_tracked st2.pods : Int) :=
  C1_amended_counter_equality cfg1 st2
    (ReachableE.step (ReachableE.step ReachableE.init
      (StepE.create_pvc_step init_state "p" env_ok rfl))
      (StepE.attach_pod_step st1 none "a" ⟨0, true, true⟩))

/-- C2 (counterexample): `_delete_pvc` can unregister a PVC whose pod list
is non-empty. In the concrete run on `st2` (PVC `"p"` tracking pod `"a"`)
with the cascaded pod deletion failing, the tracker state at the moment
`_untrack_deleted_pvc` runs still maps `"p"` to `["a"]`, yet the PVC is
removed from the tracker and the operation returns `True`. -/
theorem C2_counterexample_unregister_nonempty :
    "p" ∈ st2.pvcs ∧
      podsLookup (delete_all_pods_for_pvc st2 "p" bad_pvc_env.podEnvs).pods "p"
        = some ["a"] ∧
      (delete_pvc_tracked st2 "p" bad_pvc_env).2 = true ∧
      (delete_pvc_tracked st2 "p" bad_pvc_env).1.pvcs = [] := by
  refine ⟨?_, ?_, ?_, ?_⟩ <;> decide

/-- C2 (amended): delete-claim attempts deletion of all the claim's units
before unregistering it, and whenever every cascaded unit deletion
succeeds, the claim's unit list is empty at the tracker state in which the
claim is unregistered; a failed unit deletion, however, leaves the list
non-empty and the claim is unregistered anyway (see the counterexample). -/
theorem C2_amended_cascade_empties (st : OrchState) (pvc : String)
    (l : List String) (env : PvcDeleteEnv)
    (h : podsLookup st.pods pvc = some l)
    (hok : ∀ e ∈ env.podEnvs, e.call = KCall.ok ∧ e.waitDeleted = true)
    (hlen : l.length ≤ env.podEnvs.length) :
    podsLookup (delete_all_pods_for_pvc st pvc env.podEnvs).pods pvc = some [] := by
  unfold delete_all_pods_for_pvc
  rw [h]
  exact delete_pods_go_empties l st pvc env.podEnvs h hok hlen

/-- Witness for the amended C2 at a concrete fully successful cascade. -/
theorem C2_amended_cascade_empties_witness :
    podsLookup (delete_all_pods_for_pvc st2 "p" good_pvc_env.podEnvs).pods "p"
      = some [] :=
  C2_amended_cascade_empties st2 "p" ["a"] good_pvc_env (by decide)
    (by decide) (by decide)

/-- C9: the implicit inequality invariant holds — in every reachable
orchestrator state, `current_pod_count` is at least the sum of the
per-PVC pod-list lengths, and hence never negative: `_track_new_pod`
increments list and counter together, `_untrack_deleted_pod` removes and
decrements together (guarded by membership), and `_untrack_deleted_pvc`
only drops list entries without decrementing the counter. -/
theorem C9_pod_counter_lower_bound (cfg : Config) (st : OrchState)
    (h : Reachable cfg st) :
    (total_tracked st.pods : Int) ≤ st.current_pod_count ∧
      0 ≤ st.current_pod_count := by
  have hg := reachable_invGe h
  exact ⟨hg, le_trans (Int.natCast_nonneg _) hg⟩

/-- Witness for C9 at a concrete reachable state. -/
theorem C9_pod_counter_lower_bound_witness :
    (total_tracked st3.pods : Int) ≤ st3.current_pod_count ∧
      0 ≤ st3.current_pod_count :=
  C9_pod_counter_lower_bound cfg1 st3
    (Reachable.step (Reachable.step (Reachable.step Reachable.init
      (Step.create_pvc_step init_state "p" env_ok))
      (Step.attach_pod_step st1 none "a" ⟨0, true, true⟩))
      (Step.delete_pvc_step st2 "p" bad_pvc_env))

/-- C5 (counterexample): the claim ceiling `len(claims) ≤ max_claims` does
not hold across the scenarios: with `max_pvcs = 1`, after one ordinary
`_create_pvc` the scenario PVC creation (`_create_many_to_one_pvc`)
registers a second PVC without any ceiling check, reaching a state with
two tracked PVCs. -/
theorem C5_counterexample_scenario_bypasses_max :
    Reachable cfg5 st5b ∧ cfg5.max_pvcs < st5b.pvcs.length := by
  constructor
  · exact Reachable.step (Reachable.step Reachable.init
      (Step.create_pvc_step init_state "p" env_ok))
      (Step.scenario_create_step st5a "q")
  · decide

/-- C5 (amended): in every reachable state the pod ceilings hold —
`current_pod_count ≤ total_max_pods` and every tracked PVC's pod list has
length at most `max_pods_per_pvc` — and the ordinary `_create_pvc`
operation never registers a claim at or above `max_pvcs` (it is the
scenario claim creation that bypasses the `max_pvcs` check, so
`len(claims) ≤ max_claims` fails in general; see the counterexample). -/
theorem C5_amended_capacity (cfg : Config) (st : OrchState)
    (h : Reachable cfg st) :
    st.current_pod_count ≤ (cfg.total_max_pods : Int) ∧
      (∀ pvc l, podsLookup st.pods pvc = some l →
        l.length ≤ cfg.max_pods_per_pvc) ∧
      (∀ name env, cfg.max_pvcs ≤ st.pvcs.length →
        create_pvc cfg st name env = st) := by
  obtain ⟨h1, h2⟩ := reachable_invCap h
  refine ⟨h1, ?_, ?_⟩
  · intro pvc l hl
    exact h2 (pvc, l) (podsLookup_mem hl)
  · intro name env hge
    simp [create_pvc, hge]

/-- Witness for the amended C5 at a concrete reachable state. -/
theorem C5_amended_capacity_witness :
    st2.current_pod_count ≤ (cfg1.total_max_pods : Int) ∧
      (∀ pvc l, podsLookup st2.pods pvc = some l →
        l.length ≤ cfg1.max_pods_per_pvc) ∧
      (∀ name env, cfg1.max_pvcs ≤ st2.pvcs.length →
        create_pvc cfg1 st2 name env = st2) :=
  C5_amended_capacity cfg1 st2
    (Reachable.step (Reachable.step Reachable.init
      (Step.create_pvc_step init_state "p" env_ok))
      (Step.attach_pod_step st1 none "a" ⟨0, true, true⟩))

/-- C3 (counterexample): deleting a tracked pod whose control-plane delete
call reports not-found (the resource is already absent from the cluster)
does NOT return success: the 404 raised by `delete_namespaced_pod` is
caught by the generic handler, the operation returns `False`, and the
`delete_pod` FAIL counter — not the success counter — is incremented. -/
theorem C3_counterexample_notfound_counted_fail :
    (delete_pod_tracked st2 "p" "a" notfound_pod_env).2 = false ∧
      (delete_pod_tracked st2 "p" "a" notfound_pod_env).1.results.delete_pod.fail
        = st2.results.delete_pod.fail + 1 ∧
      (delete_pod_tracked st2 "p" "a" notfound_pod_env).1.results.delete_pod.success
        = st2.results.delete_pod.success := by
  refine ⟨?_, ?_, ?_⟩ <;> decide

/-- C3 (amended): a not-found reported by the delete call itself is
treated as an exception: delete-unit returns `False` and increments only
the `delete_pod` fail counter, leaving the tracker untouched; delete-claim
likewise returns `False` and increments only the `delete_pvc` fail counter
on top of whatever its cascaded pod deletions did. (Only a resource that
vanishes during the deletion wait, after a successful delete submission,
is counted as success — see C8 for the wait machine.) -/
theorem C3_amended_delete_notfound (st : OrchState) (pvc pod : String)
    (e : PodDeleteEnv) (env : PvcDeleteEnv)
    (hmem : pod ∈ (podsLookup st.pods pvc).getD [])
    (hpvc : pvc ∈ st.pvcs)
    (hcall : e.call = KCall.notFound)
    (hcall' : env.call = KCall.notFound) :
    delete_pod_tracked st pvc pod e =
      ({ st with results :=
          { st.results with delete_pod := incFail st.results.delete_pod } }, false) ∧
    delete_pvc_tracked st pvc env =
      ({ delete_all_pods_for_pvc st pvc env.podEnvs with results :=
          { (delete_all_pods_for_pvc st pvc env.podEnvs).results with
            delete_pvc :=
              incFail (delete_all_pods_for_pvc st pvc env.podEnvs).results.delete_pvc } },
        false) := by
  have hne : ¬st.pvcs = [] := by
    intro h0
    rw [h0] at hpvc
    simp at hpvc
  constructor
  · simp only [delete_pod_tracked, if_pos hmem, hcall]
  · simp only [delete_pvc_tracked, if_neg hne, if_pos hpvc, hcall']

/-- Witness for the amended C3 at a concrete tracked pod and PVC whose
delete calls report not-found. -/
theorem C3_amended_delete_notfound_witness :
    delete_pod_tracked st2 "p" "a" notfound_pod_env =
      ({ st2 with results :=
          { st2.results with delete_pod := incFail st2.results.delete_pod } }, false) ∧
    delete_pvc_tracked st2 "p" notfound_pvc_env =
      ({ delete_all_pods_for_pvc st2 "p" notfound_pvc_env.podEnvs with results :=
          { (delete_all_pods_for_pvc st2 "p" notfound_pvc_env.podEnvs).results with
            delete_pvc :=
              incFail (delete_all_pods_for_pvc st2 "p" notfound_pvc_env.podEnvs).results.delete_pvc } },
        false) :=
  C3_amended_delete_notfound st2 "p" "a" notfound_pod_env notfound_pvc_env
    (by decide) (by decide) rfl rfl

/-- C4 (counterexample): when `_attach_pod`'s ready-wait times out the
operation does return `None`, but the pod is NOT un-counted:
`_track_new_pod` already ran before the wait, so the `attach_pod` success
counter is incremented and the pod stays registered in the tracker. -/
theorem C4_counterexample_timeout_still_counted :
    (attach_pod cfg1 st1 none "a" ⟨0, true, false⟩).2 = none ∧
      (attach_pod cfg1 st1 none "a" ⟨0, true, false⟩).1.results.attach_pod.success
        = st1.results.attach_pod.success + 1 ∧
      podsLookup (attach_pod cfg1 st1 none "a" ⟨0, true, false⟩).1.pods "p"
        = some ["a"] := by
  refine ⟨?_, ?_, ?_⟩ <;> decide

/-- C4 (amended): on a ready-wait timeout `_attach_pod` returns `None`,
but the unit has already been registered and the `attach_pod` success
counter already incremented by `_track_new_pod`, which runs before the
wait; neither effect is rolled back. -/
theorem C4_amended_ready_timeout (cfg : Config) (st : OrchState)
    (pn : Option String) (pod : String) (env : AttachEnv) (pvc : String)
    (hne : st.pvcs ≠ [])
    (hcap : st.current_pod_count < (cfg.total_max_pods : Int))
    (hsel : select_pvc_for_pod cfg st pn env.choice = some pvc)
    (hok : env.createOk = true) (hw : env.readyWait = false) :
    attach_pod cfg st pn pod env = (track_new_pod st pvc pod, none) ∧
      (track_new_pod st pvc pod).results.attach_pod.success
        = st.results.attach_pod.success + 1 ∧
      pod ∈ (podsLookup (track_new_pod st pvc pod).pods pvc).getD [] := by
  refine ⟨?_, rfl, ?_⟩
  · simp only [attach_pod, if_neg hne, if_neg (not_le.mpr hcap), hsel, hok, hw]
    simp
  · simp only [track_new_pod]
    rw [podsLookup_podsSet_self]
    simp

/-- Witness for the amended C4 at a concrete attach whose ready-wait times
out. -/
theorem C4_amended_ready_timeout_witness :
    attach_pod cfg1 st1 none "a" ⟨0, true, false⟩ =
      (track_new_pod st1 "p" "a", none) ∧
      (track_new_pod st1 "p" "a").results.attach_pod.success
        = st1.results.attach_pod.success + 1 ∧
      "a" ∈ (podsLookup (track_new_pod st1 "p" "a").pods "p").getD [] :=
  C4_amended_ready_timeout cfg1 st1 none "a" ⟨0, true, false⟩ "p"
    (by decide) (by decide) (by decide) rfl rfl

/-- C6: cleanup always runs when the scheduler loop exits — on time-budget
expiry, user interrupt, or uncaught exception — and follows the two-pass
protocol: a first graceful pass over all tracked pods then PVCs; a forced
second pass exactly when the fresh filtered listing taken after the first
pass is non-empty (pods by the `app=efs-test` label, PVCs by the known
name patterns); the listing taken after the second pass is only logged as
unresolved, never retried by a third pass. -/
theorem C6_cleanup_protocol (ex : LoopExit) (st : OrchState) (env : CleanupEnv) :
    run_test ex st env = cleanup st env ∧
      ((run_test ex st env).forcedPassRan = true ↔
        get_remaining_resources env.cluster1 ≠ []) ∧
      ((run_test ex st env).forcedPassRan = false →
        (run_test ex st env).finalState
            = cleanup_resources st env.podEnvs1 env.pvcEnvs1 ∧
          (run_test ex st env).unresolved = []) ∧
      ((run_test ex st env).forcedPassRan = true →
        (run_test ex st env).finalState
            = cleanup_resources (cleanup_resources st env.podEnvs1 env.pvcEnvs1)
                env.podEnvs2 env.pvcEnvs2 ∧
          (run_test ex st env).unresolved = get_remaining_resources env.cluster2) ∧
      (get_remaining_resources env.cluster1 = [] ↔
        (∀ p ∈ env.cluster1.pods, ¬p.appLabel = "efs-test") ∧
          ∀ n ∈ env.cluster1.pvcNames, ¬matches_test_pvc_naming n = true) := by
  have hrt : run_test ex st env = cleanup st env := by cases ex <;> rfl
  refine ⟨hrt, ?_, ?_, ?_, ?_⟩
  · rw [hrt]
    unfold cleanup
    by_cases hrem : (get_remaining_resources env.cluster1).isEmpty
    · simp [hrem, List.isEmpty_iff.mp hrem]
    · simp only [hrem, Bool.false_eq_true, if_false]
      simpa using fun h => hrem (by simp [h])
  · rw [hrt]
    intro hforced
    unfold cleanup at hforced ⊢
    by_cases hrem : (get_remaining_resources env.cluster1).isEmpty
    · simp [hrem]
    · simp [hrem] at hforced
  · rw [hrt]
    intro hforced
    unfold cleanup at hforced ⊢
    by_cases hrem : (get_remaining_resources env.cluster1).isEmpty
    · simp [hrem] at hforced
    · simp [hrem]
  · simp [get_remaining_resources, List.filter_eq_nil_iff]

/-- C8: the wait state machines map outcomes as specified. The claim-bound
wait returns success exactly when phase `"Bound"` is observed within the
poll budget with no 404 before it — so a 404 during the wait and an
exhausted budget (timeout) both return failure, and success requires
`"Bound"` within the timeout. The deletion wait returns success exactly
when a 404 (resource gone) is observed within the poll budget — so an
exhausted budget with the resource still present returns failure. -/
theorem C8_wait_state_machines (bt : List PvcObs) (dt : List DelObs) :
    (wait_for_pvc_bound bt = true ↔
      ∃ pre post, bt = pre ++ PvcObs.phase "Bound" :: post ∧
        ∀ o ∈ pre, o ≠ PvcObs.notFound) ∧
      (wait_for_pod_deleted dt = true ↔ DelObs.notFound ∈ dt) :=
  ⟨wait_for_pvc_bound_iff bt, wait_for_pod_deleted_iff dt⟩

/-- C7 (counterexample): the roulette does not select the first operation
whose cumulative bound strictly EXCEEDS the draw. With the default weights
the cumulative bounds are `[25, 50, 70, 85, 100, 120]`; at the valid draw
`25` the code (`random_val <= cumulative_weights[i]`) selects operation 0,
while the first operation whose bound strictly exceeds 25 is operation 1. -/
theorem C7_counterexample_boundary_draw :
    (0 : ℚ) ≤ 25 ∧ (25 : ℚ) < default_total ∧
      run_random_operation default_cumulative 25 = some 0 ∧
      select_by_exceeding default_cumulative 25 = some 1 := by
  refine ⟨by norm_num, ?_, ?_, ?_⟩
  · norm_num [default_total, total_weight_of, default_cumulative, cumulative_sums,
      cum_go, default_weights, List.getLastD]
  · norm_num [run_random_operation, sel_go, default_cumulative, cumulative_sums,
      cum_go, default_weights]
  · norm_num [select_by_exceeding, sel_exceed_go, default_cumulative, cumulative_sums,
      cum_go, default_weights]

/-- C7 (amended): for every draw in `[0, total_weight]` the roulette
selects exactly one operation, namely the FIRST operation whose cumulative
bound is greater than or equal to the draw — all earlier cumulative bounds
are strictly below the draw. (A draw equal to a bound selects that
operation rather than the next one; this still gives each operation a
selection interval of measure equal to its weight.) -/
theorem C7_amended_roulette (weights : List ℚ) (draw : ℚ)
    (hne : weights ≠ []) (_h0 : 0 ≤ draw)
    (h1 : draw ≤ total_weight_of (cumulative_sums weights)) :
    ∃ k, k < (cumulative_sums weights).length ∧
      run_random_operation (cumulative_sums weights) draw = some k ∧
      draw ≤ (cumulative_sums weights).getD k 0 ∧
      ∀ j < k, (cumulative_sums weights).getD j 0 < draw := by
  have hlen := length_cum_go 0 weights
  have hcum_ne : cumulative_sums weights ≠ [] := by
    intro h
    apply hne
    apply List.length_eq_zero.mp
    rw [← hlen]
    rw [cumulative_sums] at h
    rw [h]
    rfl
  have hex : ∃ c ∈ cumulative_sums weights, draw ≤ c :=
    ⟨total_weight_of (cumulative_sums weights),
      getLastD_mem_of_ne_nil _ hcum_ne, h1⟩
  obtain ⟨k, hk1, hk2, hk3, hk4⟩ := sel_go_first (cumulative_sums weights) 0 draw hex
  refine ⟨k, hk1, ?_, hk3, hk4⟩
  rw [run_random_operation, hk2]
  simp

/-- Witness for the amended C7 at weights `[1, 2]` and draw `3/2`. -/
theorem C7_amended_roulette_witness :
    ∃ k, k < (cumulative_sums [1, 2]).length ∧
      run_random_operation (cumulative_sums [1, 2]) (3 / 2) = some k ∧
      (3 / 2 : ℚ) ≤ (cumulative_sums [1, 2]).getD k 0 ∧
      ∀ j < k, (cumulative_sums [1, 2]).getD j 0 < (3 / 2 : ℚ) :=
  C7_amended_roulette [1, 2] (3 / 2) (by decide) (by norm_num)
    (by norm_num [total_weight_of, cumulative_sums, cum_go, List.getLastD])

/-- C10 (counterexample): with the total pod ceiling already reached
(`total_max_pods = 0`), calling `_attach_pod` with an unknown explicit PVC
name while one PVC is tracked and far below its per-PVC ceiling does not
substitute a random tracked PVC and proceed: it returns `None` with the
state unchanged, because the global ceiling check runs before the
substitution — so the operation is not subject ONLY to the chosen claim's
per-claim ceiling. -/
theorem C10_counterexample_total_ceiling :
    Reachable cfg10 st10 ∧
      st10.pvcs ≠ [] ∧
      "q" ∉ st10.pvcs ∧
      ((podsLookup st10.pods "p").getD []).length < cfg10.max_pods_per_pvc ∧
      (attach_pod cfg10 st10 (some "q") "a" ⟨0, true, true⟩).2 = none ∧
      (attach_pod cfg10 st10 (some "q") "a" ⟨0, true, true⟩).1 = st10 := by
  refine ⟨Reachable.step Reachable.init
    (Step.create_pvc_step init_state "p" env_ok), ?_, ?_, ?_, ?_, ?_⟩ <;> decide

/-- C10 (amended): when `_attach_pod` is called with an explicit claim
name that is not tracked, at least one claim is tracked, AND the global
total-pod ceiling has not been reached, it silently substitutes the
uniformly drawn tracked claim and proceeds subject to that claim's
per-claim pod ceiling: the selection returns that claim exactly when the
claim is below its ceiling, and in that case a successful create call
registers the pod against it. -/
theorem C10_amended_substitution (cfg : Config) (st : OrchState)
    (name pod : String) (env : AttachEnv)
    (hne : st.pvcs ≠ []) (hunknown : name ∉ st.pvcs)
    (hcap : st.current_pod_count < (cfg.total_max_pods : Int)) :
    (select_pvc_for_pod cfg st (some name) env.choice =
      if cfg.max_pods_per_pvc ≤
          ((podsLookup st.pods (random_choice st.pvcs env.choice)).getD []).length
        then none
        else some (random_choice st.pvcs env.choice)) ∧
      (((podsLookup st.pods (random_choice st.pvcs env.choice)).getD []).length
          < cfg.max_pods_per_pvc →
        env.createOk = true →
        attach_pod cfg st (some name) pod env =
          (track_new_pod st (random_choice st.pvcs env.choice) pod,
            if env.readyWait then some pod else none)) := by
  have hsel : select_pvc_for_pod cfg st (some name) env.choice =
      if cfg.max_pods_per_pvc ≤
          ((podsLookup st.pods (random_choice st.pvcs env.choice)).getD []).length
        then none
        else some (random_choice st.pvcs env.choice) := by
    simp [select_pvc_for_pod, hunknown]
  refine ⟨hsel, ?_⟩
  intro hlt hok
  have hsel' : select_pvc_for_pod cfg st (some name) env.choice
      = some (random_choice st.pvcs env.choice) := by
    rw [hsel, if_neg (not_le.mpr hlt)]
  simp only [attach_pod, if_neg hne, if_neg (not_le.mpr hcap), hsel', hok]
  cases env.readyWait <;> simp

/-- Witness for the amended C10: attaching with unknown name `"q"` while
`"p"` is tracked substitutes `"p"` and registers the pod there. -/
theorem C10_amended_substitution_witness :
    (select_pvc_for_pod cfg1 st1 (some "q") (0 : Nat) =
      if cfg1.max_pods_per_pvc ≤
          ((podsLookup st1.pods (random_choice st1.pvcs 0)).getD []).length
        then none
        else some (random_choice st1.pvcs 0)) ∧
      (((podsLookup st1.pods (random_choice st1.pvcs 0)).getD []).length
          < cfg1.max_pods_per_pvc →
        true = true →
        attach_pod cfg1 st1 (some "q") "a" ⟨0, true, true⟩ =
          (track_new_pod st1 (random_choice st1.pvcs 0) "a",
            if true then some "a" else none)) :=
  C10_amended_substitution cfg1 st1 "q" "a" ⟨0, true, true⟩
    (by decide) (by decide) (by decide)

/-- Witness for C6 at a concrete loop exit, tracker state and cleanup
environment. -/
theorem C6_cleanup_protocol_witness :
    run_test LoopExit.unexpectedError st2 trivial_cleanup_env
        = cleanup st2 trivial_cleanup_env ∧
      ((run_test LoopExit.unexpectedError st2 trivial_cleanup_env).forcedPassRan = true ↔
        get_remaining_resources trivial_cleanup_env.cluster1 ≠ []) ∧
      ((run_test LoopExit.unexpectedError st2 trivial_cleanup_env).forcedPassRan = false →
        (run_test LoopExit.unexpectedError st2 trivial_cleanup_env).finalState
            = cleanup_resources st2 trivial_cleanup_env.podEnvs1 trivial_cleanup_env.pvcEnvs1 ∧
          (run_test LoopExit.unexpectedError st2 trivial_cleanup_env).unresolved = []) ∧
      ((run_test LoopExit.unexpectedError st2 trivial_cleanup_env).forcedPassRan = true →
        (run_test LoopExit.unexpectedError st2 trivial_cleanup_env).finalState
            = cleanup_resources
                (cleanup_resources st2 trivial_cleanup_env.podEnvs1 trivial_cleanup_env.pvcEnvs1)
                trivial_cleanup_env.podEnvs2 trivial_cleanup_env.pvcEnvs2 ∧
          (run_test LoopExit.unexpectedError st2 trivial_cleanup_env).unresolved
            = get_remaining_resources trivial_cleanup_env.cluster2) ∧
      (get_remaining_resources trivial_cleanup_env.cluster1 = [] ↔
        (∀ p ∈ trivial_cleanup_env.cluster1.pods, ¬p.appLabel = "efs-test") ∧
          ∀ n ∈ trivial_cleanup_env.cluster1.pvcNames,
            ¬matches_test_pvc_naming n = true) :=
  C6_cleanup_protocol LoopExit.unexpectedError st2 trivial_cleanup_env

/-- Witness for C8 at concrete poll traces: an immediate `"Bound"`
observation and an immediate 404. -/
theorem C8_wait_state_machines_witness :
    (wait_for_pvc_bound [PvcObs.phase "Bound"] = true ↔
      ∃ pre post, [PvcObs.phase "Bound"] = pre ++ PvcObs.phase "Bound" :: post ∧
        ∀ o ∈ pre, o ≠ PvcObs.notFound) ∧
      (wait_for_pod_deleted [DelObs.notFound] = true ↔
        DelObs.notFound ∈ [DelObs.notFound]) :=
  C8_wait_state_machines [PvcObs.phase "Bound"] [DelObs.notFound]
